import Mathlib

/-!
# Verification of the stream-scout clip detector

A shallow embedding of the core of the `stream-scout` repository
(`src/services/flink-job/clip_detector_job.py`,
`src/services/stream-monitoring/stream_monitoring_service.py`,
`src/services/stream-monitoring/token_manager.py`) together with proofs of
the specification's claims about it.

Conventions used throughout:

* Python `int` becomes `Int` (or `Nat` where the source value is a count);
  Python `float` statistics become exact `ℚ` arithmetic.  The one use of a
  square root (`statistics.stdev`) is eliminated by an equivalent squared
  comparison, proved sound against `Real.sqrt` in `anomalyCond_iff_real`.
* Effectful code is embedded as explicit state passing; outcomes of HTTP
  calls are oracle arguments of the embedded functions.
* Log statements, metrics and message strings of exceptions are dropped:
  only `(status_code, is_retryable)` of a `TwitchAPIError` is kept.
-/

namespace StreamScout

/-! ## Configuration constants (`clip_detector_job.py`, lines 48-57) -/

/-- `RETRYABLE_STATUS_CODES = {408, 429, 500, 502, 503, 504}`. -/
def RETRYABLE_STATUS_CODES : List Nat := [408, 429, 500, 502, 503, 504]

def WINDOW_SIZE_SECONDS : Int := 5

def BASELINE_WINDOW_SECONDS : Int := 300

/-- `STD_DEV_THRESHOLD = 1.0` (exact as a rational). -/
def STD_DEV_THRESHOLD : ℚ := 1

def COOLDOWN_SECONDS : Int := 30

def MAX_RETRY_ATTEMPTS : Nat := 3

/-- `RETRY_DELAYS = [0, 3, 6]` seconds. -/
def RETRY_DELAYS : List Nat := [0, 3, 6]

/-! ## Chat lines and the command pre-filter (`CommandFilter`, lines 363-373)

The Python operator receives a JSON string, parses it and inspects the
`text` field; lines that fail to parse are dropped upstream of the filter
decision.  We embed at the parsed level: a `ChatLine` carries the fields the
pipeline reads. -/

structure ChatLine where
  broadcaster_id : Int
  timestamp : Int
  text : String
deriving DecidableEq

/-- A character of the regex class `[a-zA-Z0-9]`. -/
def isCommandChar (c : Char) : Bool :=
  ('a' ≤ c && c ≤ 'z') || ('A' ≤ c && c ≤ 'Z') || ('0' ≤ c && c ≤ '9')

/-- `COMMAND_PATTERN.match(text)` with `COMMAND_PATTERN = re.compile(r"^![a-zA-Z0-9]+")`:
`re.match` anchors at the start, so the pattern matches iff the text starts
with a bang followed by at least one ASCII alphanumeric character. -/
def commandPatternMatch (s : String) : Bool :=
  match s.data with
  | '!' :: c :: _ => isCommandChar c
  | _ => false

/-- `CommandFilter.process_element` lifted to a whole stream: keep exactly the
lines whose text does not match `COMMAND_PATTERN`. -/
def commandFilter (xs : List ChatLine) : List ChatLine :=
  xs.filter (fun l => !commandPatternMatch l.text)

/-- A chat line with the given text (the filter only reads `text`). -/
def mkLine (t : String) : ChatLine := ⟨0, 0, t⟩

/-- C8: the command pre-filter is the stateless pointwise filter keeping, in
order, exactly the lines whose text does not match `^![A-Za-z0-9]+`; it is a
homomorphism for concatenation, and the four-message example sequence
`["!help","hello","!bet100","LUL"]` contributes exactly the two non-command
lines to the detector. -/
theorem c8_command_filter_pointwise :
    (∀ xs ys : List ChatLine,
        commandFilter (xs ++ ys) = commandFilter xs ++ commandFilter ys)
    ∧ (∀ xs : List ChatLine, (commandFilter xs).Sublist xs)
    ∧ (∀ (xs : List ChatLine) (l : ChatLine),
        l ∈ commandFilter xs ↔ l ∈ xs ∧ commandPatternMatch l.text = false)
    ∧ commandFilter [mkLine "!help", mkLine "hello", mkLine "!bet100", mkLine "LUL"]
        = [mkLine "hello", mkLine "LUL"] := by
  refine ⟨fun xs ys => List.filter_append .., fun xs => List.filter_sublist ..,
    fun xs l => ?_, by decide⟩
  simp [commandFilter]

/-! ## Credential store (`token_manager.py`)

`TokenManager` keeps `_access_token`, `_refresh_token` and `_scopes` in
memory and persists them in a JSON file.  The file record also carries an
`updated_at` ISO timestamp which no reader consumes; it is dropped here.
Python truthiness of an optional string (`not self._access_token`) treats
both `None` and `""` as falsy. -/

structure TokenFileData where
  access_token : Option String
  refresh_token : Option String
  scopes : List String
deriving DecidableEq

structure TokenManager where
  access_token : Option String
  refresh_token : Option String
  scopes : List String
deriving DecidableEq

inductive LoadError
  | fileNotFound
  | valueError
deriving DecidableEq

/-- Python truthiness of an optional string value. -/
def pyTruthyStr : Option String → Bool
  | none => false
  | some s => decide (s ≠ "")

/-- `TokenManager.load_tokens` (`token_manager.py`, lines 36-70): raise
`FileNotFoundError` if the backing file is absent; otherwise read the three
fields (with `data.get` defaults), update the in-memory state, and raise
`ValueError` when either token field is missing or empty. -/
def loadTokens (tm : TokenManager) (file : Option TokenFileData) :
    TokenManager × Except LoadError (String × String × List String) :=
  match file with
  | none => (tm, .error .fileNotFound)
  | some data =>
    let tm' : TokenManager :=
      { access_token := data.access_token
        refresh_token := data.refresh_token
        scopes := data.scopes }
    if pyTruthyStr tm'.access_token && pyTruthyStr tm'.refresh_token then
      (tm', .ok (tm'.access_token.getD "", tm'.refresh_token.getD "", data.scopes))
    else
      (tm', .error .valueError)

/-- `TokenManager.save_tokens` (`token_manager.py`, lines 72-100): update the
in-memory pair and write a record carrying the new pair together with the
scopes currently held by the store. -/
def saveTokens (tm : TokenManager) (access refresh : String) :
    TokenManager × TokenFileData :=
  let tm' : TokenManager :=
    { access_token := some access
      refresh_token := some refresh
      scopes := tm.scopes }
  (tm', { access_token := some access
          refresh_token := some refresh
          scopes := tm.scopes })

/-- C7: credential save/load round-trip.  For non-empty tokens `a`, `r`,
running `save(a, r)` and then `load()` on the resulting store and file
returns exactly `(a, r, scopes_prior)`, where `scopes_prior` are the scopes
held by the store before the save; the save leaves the scopes unchanged. -/
theorem c7_save_load_round_trip (tm : TokenManager) (a r : String)
    (ha : a ≠ "") (hr : r ≠ "") :
    (loadTokens (saveTokens tm a r).1 (some (saveTokens tm a r).2)).2
        = .ok (a, r, tm.scopes)
    ∧ (saveTokens tm a r).1.scopes = tm.scopes := by
  refine ⟨?_, rfl⟩
  simp [loadTokens, saveTokens, pyTruthyStr, ha, hr]

/-- Witness for C7 at a concrete store and token pair. -/
theorem c7_save_load_round_trip_witness :
    (loadTokens (saveTokens ⟨none, none, ["chat:read", "clips:edit"]⟩ "A2" "R2").1
        (some (saveTokens ⟨none, none, ["chat:read", "clips:edit"]⟩ "A2" "R2").2)).2
      = .ok ("A2", "R2", ["chat:read", "clips:edit"]) :=
  (c7_save_load_round_trip ⟨none, none, ["chat:read", "clips:edit"]⟩ "A2" "R2"
    (by decide) (by decide)).1

/-! ## File-system write traces and crash semantics (claim C6)

`save_tokens` performs file-system effects; to settle the atomic-replacement
claim we record those effects as a trace of operations and give the trace a
crash semantics: execution may stop before any operation, and a plain
in-place file write may additionally stop midway, leaving an arbitrary
prefix of the new content (the `open(path, "w")` truncation plus a partial
write).  A rename is atomic. -/

inductive FsOp
  | writeFile (path content : String)
  | rename (src dst : String)
deriving DecidableEq

/-- Effect of one completed operation on the file system (path → contents;
a rename removes the source, leaving it empty). -/
def applyOp (fs : String → String) : FsOp → String → String
  | .writeFile p c => fun q => if q = p then c else fs q
  | .rename src dst => fun q => if q = dst then fs src else if q = src then "" else fs q

/-- Run a trace to completion. -/
def runOps (fs : String → String) : List FsOp → String → String
  | [] => fs
  | op :: ops => runOps (applyOp fs op) ops

/-- `CrashResult ops fs fs'` holds when a crash at some point while executing
`ops` from file system `fs` can leave file system `fs'`. -/
inductive CrashResult : List FsOp → (String → String) → (String → String) → Prop
  | beforeNext (ops : List FsOp) (fs : String → String) : CrashResult ops fs fs
  | midWrite (p c : String) (ops : List FsOp) (fs : String → String) (k : Nat) :
      CrashResult (.writeFile p c :: ops) fs (applyOp fs (.writeFile p (c.take k)))
  | step (op : FsOp) (ops : List FsOp) (fs fs' : String → String)
      (h : CrashResult ops (applyOp fs op) fs') : CrashResult (op :: ops) fs fs'

/-- The file-system trace of `TokenManager.save_tokens` (`token_manager.py`,
lines 95-96) and likewise of `TwitchAPIClient._save_tokens`
(`clip_detector_job.py`, lines 148-149): a single in-place
`open(token_file, "w")` followed by `json.dump`.  `record` is the serialized
new record.  There is no temporary file and no rename anywhere in the
source. -/
def saveTokensOps (tokenFile record : String) : List FsOp :=
  [FsOp.writeFile tokenFile record]

/-- Modelled from the spec: "writes via write-temp-then-rename to avoid torn
files on crash".  The atomic replacement discipline the spec describes, for
comparison with `saveTokensOps`. -/
def specAtomicSaveOps (tokenFile tmpFile record : String) : List FsOp :=
  [FsOp.writeFile tmpFile record, FsOp.rename tmpFile tokenFile]

/-- The claim's crash-safety property for a trace replacing `target`: however
the trace is interrupted, the target file holds either the old or the new
content, never a torn record. -/
def crashSafe (ops : List FsOp) (target old new : String) : Prop :=
  ∀ fs fs', fs target = old → CrashResult ops fs fs' →
    fs' target = old ∨ fs' target = new

/-- The spec's write-temp-then-rename discipline really is crash-safe
(provided the temporary path differs from the target). -/
theorem specAtomicSaveOps_crashSafe (tokenFile tmpFile record old : String)
    (hne : tmpFile ≠ tokenFile) :
    crashSafe (specAtomicSaveOps tokenFile tmpFile record) tokenFile old record := by
  intro fs fs' hold h
  cases h with
  | beforeNext => exact Or.inl hold
  | midWrite p c ops fs k =>
    left
    simpa [applyOp, hne.symm] using hold
  | step op ops fs fs' h =>
    cases h with
    | beforeNext =>
      left
      simpa [applyOp, hne.symm] using hold
    | step op ops fs fs' h =>
      cases h with
      | beforeNext =>
        right
        simp [applyOp]

/-- C6 counterexample: `save_tokens` is not an atomic temp-write-then-rename
replacement.  With old file content `"OLD_RECORD"` and new record
`"NEW_RECORD"`, a crash in the middle of the single in-place write can leave
the backing file holding the torn content `"N"`, which is neither the old
nor the new record — the claimed crash-safety property fails. -/
theorem c6_counterexample_not_atomic :
    ¬ crashSafe (saveTokensOps "twitch_user_tokens.json" "NEW_RECORD")
        "twitch_user_tokens.json" "OLD_RECORD" "NEW_RECORD" := by
  intro h
  have h2 := h (fun _ => "OLD_RECORD") _ rfl
    (CrashResult.midWrite "twitch_user_tokens.json" "NEW_RECORD" []
      (fun _ => "OLD_RECORD") 1)
  simp only [applyOp, if_pos rfl] at h2
  rcases h2 with h2 | h2 <;> exact absurd h2 (by decide)

/-- C6 (amended): `save_tokens` replaces the backing file by a single
in-place write of the new record — no temporary file, no rename.  A
completed save leaves exactly the new record; a crash during the save leaves
the old content, the complete new record, or a torn prefix of the new
record; and the record written by `save(access, refresh)` preserves the
scopes held by the store. -/
theorem c6_save_in_place (tokenFile record : String) :
    (∀ fs : String → String,
        runOps fs (saveTokensOps tokenFile record) tokenFile = record)
    ∧ (∀ fs fs' : String → String,
        CrashResult (saveTokensOps tokenFile record) fs fs' →
          fs' tokenFile = fs tokenFile ∨ fs' tokenFile = record
            ∨ ∃ k, fs' tokenFile = record.take k)
    ∧ (∀ (tm : TokenManager) (a r : String),
        (saveTokens tm a r).2.scopes = tm.scopes
          ∧ (saveTokens tm a r).1.scopes = tm.scopes) := by
  refine ⟨fun fs => by simp [runOps, saveTokensOps, applyOp], ?_,
    fun tm a r => ⟨rfl, rfl⟩⟩
  intro fs fs' h
  cases h with
  | beforeNext => exact Or.inl rfl
  | midWrite p c ops fs k =>
    right; right
    exact ⟨k, by simp [applyOp]⟩
  | step op ops fs fs' h =>
    cases h with
    | beforeNext =>
      right; left
      simp [applyOp]

/-- Witness for C6 (amended) at a concrete file system and crash point. -/
theorem c6_save_in_place_witness :
    ("OLD" : String) = "OLD" ∨ ("OLD" : String) = "NEW"
      ∨ ∃ k, ("OLD" : String) = ("NEW" : String).take k :=
  (c6_save_in_place "tok.json" "NEW").2.1 (fun _ => "OLD") (fun _ => "OLD")
    (CrashResult.beforeNext _ _)

/-! ## Platform client (`TwitchAPIClient`, `clip_detector_job.py`, lines 110-300)

The two HTTP requests a call can make (the original and the post-refresh
retry) and the token refresh are oracle arguments.  We track the bearer
tokens of the create/get requests actually issued and the number of refresh
calls, so that the "exactly one refresh, exactly one retry with the new
token" parts of the claims are visible in the embedding. -/

/-- `(status_code, is_retryable)` of a raised `TwitchAPIError`; the message
string is dropped. -/
structure APIError where
  status_code : Nat
  is_retryable : Bool
deriving DecidableEq

/-- Outcome of one HTTP request: a reply whose JSON `data` array parsed to
the given list of payloads (`none` body = the body is not valid JSON, so
`response.json()` raises), a `requests.exceptions.Timeout`, or a
`requests.exceptions.ConnectionError`. -/
inductive HttpResult
  | reply (status : Nat) (body : Option (List String))
  | timeout
  | connError
deriving DecidableEq

/-- Outcome of `_refresh_access_token` (lines 154-178): success with the new
token pair, or the exception it (re)raises — a network timeout, a connection
error, or any other exception (e.g. `raise_for_status` on a non-200 reply). -/
inductive RefreshResult
  | ok (access refresh : String)
  | timeout
  | connError
  | otherError
deriving DecidableEq

/-- `_is_retryable_status` (lines 180-182). -/
def isRetryableStatus (status : Nat) : Bool :=
  RETRYABLE_STATUS_CODES.contains status

structure CreateClipOutcome where
  /-- `Optional[str]` return value, or the raised `TwitchAPIError`. -/
  result : Except APIError (Option String)
  /-- Bearer tokens of the create-clip requests issued, in order. -/
  tokensUsed : List String
  /-- Number of `_refresh_access_token` calls made. -/
  refreshCalls : Nat

/-- `TwitchAPIClient.create_clip` (lines 184-255).  `accessToken` is the
client's current token, `first` the outcome of the original request,
`refreshR` the outcome of the refresh attempted on a 401, and `second` the
outcome of the retried request.  Branches mirror the Python `if`/`elif`
chain and the exception handlers at lines 247-255; note that all failures of
the post-refresh retried request other than network exceptions raise with
`is_retryable=False` (line 235). -/
def createClip (accessToken : String) (first : HttpResult)
    (refreshR : RefreshResult) (second : HttpResult) : CreateClipOutcome :=
  match first with
  | .timeout => ⟨.error ⟨408, true⟩, [accessToken], 0⟩
  | .connError => ⟨.error ⟨0, true⟩, [accessToken], 0⟩
  | .reply status body =>
    if status = 202 then
      match body with
      | some (clipId :: _) => ⟨.ok (some clipId), [accessToken], 0⟩
      | some [] => ⟨.ok none, [accessToken], 0⟩
      | none => ⟨.error ⟨0, false⟩, [accessToken], 0⟩
    else if status = 401 then
      match refreshR with
      | .timeout => ⟨.error ⟨408, true⟩, [accessToken], 1⟩
      | .connError => ⟨.error ⟨0, true⟩, [accessToken], 1⟩
      | .otherError => ⟨.error ⟨0, false⟩, [accessToken], 1⟩
      | .ok newAccess _ =>
        match second with
        | .timeout => ⟨.error ⟨408, true⟩, [accessToken, newAccess], 1⟩
        | .connError => ⟨.error ⟨0, true⟩, [accessToken, newAccess], 1⟩
        | .reply s2 body2 =>
          if s2 = 202 then
            match body2 with
            | some (clipId :: _) => ⟨.ok (some clipId), [accessToken, newAccess], 1⟩
            | some [] => ⟨.error ⟨s2, false⟩, [accessToken, newAccess], 1⟩
            | none => ⟨.error ⟨0, false⟩, [accessToken, newAccess], 1⟩
          else ⟨.error ⟨s2, false⟩, [accessToken, newAccess], 1⟩
    else ⟨.error ⟨status, isRetryableStatus status⟩, [accessToken], 0⟩

/-- The uniform error-classification property claimed for `create_clip`:
whatever the outcomes, a surfaced error whose status is in the retryable set
is marked retryable. -/
def createClipUniformClassification : Prop :=
  ∀ (tok : String) (first : HttpResult) (refreshR : RefreshResult)
    (second : HttpResult) (e : APIError),
    (createClip tok first refreshR second).result = .error e →
    e.status_code ∈ RETRYABLE_STATUS_CODES → e.is_retryable = true

/-- C3 counterexample: error classification is not uniform across the whole
call.  A 401 on the original request followed by a successful refresh and a
503 reply on the retried request surfaces `TwitchAPIError(status=503,
is_retryable=False)` — the retryable-set status 503 is reported as
permanent. -/
theorem c3_counterexample_503_after_refresh :
    ¬ createClipUniformClassification := by
  intro h
  have h2 := h "tok" (.reply 401 none) (.ok "newTok" "newRef")
    (.reply 503 (some [])) ⟨503, false⟩ rfl (by decide)
  exact absurd h2 (by decide)

/-- C3 (amended): error classification for `create_clip`.  On the original
request, a reply with status in `{408, 429, 500, 502, 503, 504}` is surfaced
as retryable, network timeouts and connection errors are retryable, and any
other 4xx (except 401) is permanent.  A 401 triggers exactly one in-line
token refresh and — when the refresh succeeds — exactly one retry of the
call bearing the new access token; any error reply of that retried call (not
only a second 401) is reported as permanent, while network timeouts and
connection errors during the retry remain retryable. -/
theorem c3_error_classification (tok : String) (refreshR : RefreshResult)
    (second : HttpResult) :
    (∀ s body, s ∈ RETRYABLE_STATUS_CODES →
        (createClip tok (.reply s body) refreshR second).result = .error ⟨s, true⟩)
    ∧ (createClip tok .timeout refreshR second).result = .error ⟨408, true⟩
    ∧ (createClip tok .connError refreshR second).result = .error ⟨0, true⟩
    ∧ (∀ s body, 400 ≤ s → s < 500 → s ≠ 401 → s ∉ RETRYABLE_STATUS_CODES →
        (createClip tok (.reply s body) refreshR second).result = .error ⟨s, false⟩)
    ∧ (∀ s body, s ≠ 401 →
        (createClip tok (.reply s body) refreshR second).refreshCalls = 0)
    ∧ (∀ body, (createClip tok (.reply 401 body) refreshR second).refreshCalls = 1)
    ∧ (∀ body newA newR, refreshR = .ok newA newR →
        (createClip tok (.reply 401 body) refreshR second).tokensUsed = [tok, newA])
    ∧ (∀ body newA newR s2 body2, refreshR = .ok newA newR →
        second = .reply s2 body2 →
        (∃ id, (createClip tok (.reply 401 body) refreshR second).result = .ok (some id))
          ∨ (∃ e, (createClip tok (.reply 401 body) refreshR second).result = .error e
              ∧ e.is_retryable = false))
    ∧ (∀ body newA newR, refreshR = .ok newA newR →
        (createClip tok (.reply 401 body) refreshR .timeout).result = .error ⟨408, true⟩
          ∧ (createClip tok (.reply 401 body) refreshR .connError).result
              = .error ⟨0, true⟩) := by
  refine ⟨?_, rfl, rfl, ?_, ?_, ?_, ?_, ?_, ?_⟩
  · intro s body hs
    simp only [RETRYABLE_STATUS_CODES, List.mem_cons, List.not_mem_nil, or_false] at hs
    rcases hs with rfl | rfl | rfl | rfl | rfl | rfl <;>
      simp [createClip, isRetryableStatus, RETRYABLE_STATUS_CODES]
  · intro s body h4a h4b h401 hs
    have h202 : s ≠ 202 := by omega
    have hret : isRetryableStatus s = false := by
      simpa [isRetryableStatus, RETRYABLE_STATUS_CODES] using hs
    simp [createClip, h202, h401, hret]
  · intro s body h401
    by_cases h202 : s = 202
    · subst h202
      rcases body with _ | ⟨_ | ⟨c, rest⟩⟩ <;> simp [createClip]
    · simp [createClip, h202, h401]
  · intro body
    cases refreshR <;> cases second <;> simp [createClip] <;>
      split <;> first | rfl | (split <;> rfl)
  · intro body newA newR hre
    subst hre
    cases second <;> simp [createClip] <;>
      split <;> first | rfl | (split <;> rfl)
  · intro body newA newR s2 body2 hre hsec
    subst hre; subst hsec
    by_cases h202 : s2 = 202
    · subst h202
      rcases body2 with _ | ⟨_ | ⟨c, rest⟩⟩
      · exact Or.inr ⟨⟨0, false⟩, by simp [createClip], rfl⟩
      · exact Or.inr ⟨⟨202, false⟩, by simp [createClip], rfl⟩
      · exact Or.inl ⟨c, by simp [createClip]⟩
    · exact Or.inr ⟨⟨s2, false⟩, by simp [createClip, h202], rfl⟩
  · intro body newA newR hre
    subst hre
    exact ⟨rfl, rfl⟩

/-- Witness for C3 (amended): a 500 reply on the original request is
surfaced as a retryable error. -/
theorem c3_error_classification_witness :
    (createClip "tok" (.reply 500 (some [])) .otherError .timeout).result
      = .error ⟨500, true⟩ :=
  (c3_error_classification "tok" .otherError .timeout).1 500 (some []) (by decide)

/-- `TwitchAPIClient.get_clip` (lines 257-300).  The whole body is wrapped
in a `try` whose handler swallows every exception and the function ends in
`return None`: a reply payload is returned only on a 200 with a non-empty
`data` array, either on the original request or — after a 401 and a
successful refresh — on the retried request. -/
def getClip (first : HttpResult) (refreshR : RefreshResult)
    (second : HttpResult) : Option String :=
  match first with
  | .timeout => none
  | .connError => none
  | .reply status body =>
    if status = 200 then
      match body with
      | some (clip :: _) => some clip
      | _ => none
    else if status = 401 then
      match refreshR with
      | .ok _ _ =>
        match second with
        | .reply s2 body2 =>
          if s2 = 200 then
            match body2 with
            | some (clip :: _) => some clip
            | _ => none
          else none
        | _ => none
      | _ => none
    else none

/-- C10: `get_clip` is total over failures.  For every combination of
outcomes — non-200 status, 200 with an empty or missing `data` array,
malformed body, network timeout, connection error, failed refresh — the
embedded `get_clip` yields `none` rather than an error, and it yields clip
data exactly when a request (possibly the one retried after a 401-triggered
refresh) produced a 200 reply with a non-empty `data` array. -/
theorem c10_get_clip_total_over_failures (first : HttpResult)
    (refreshR : RefreshResult) (second : HttpResult) :
    (getClip first refreshR second).isSome = true ↔
      ((∃ clip rest, first = .reply 200 (some (clip :: rest)))
        ∨ ((∃ body, first = .reply 401 body)
            ∧ (∃ a r, refreshR = .ok a r)
            ∧ (∃ clip rest, second = .reply 200 (some (clip :: rest))))) := by
  cases first with
  | timeout => simp [getClip]
  | connError => simp [getClip]
  | reply s body =>
    by_cases h200 : s = 200
    · subst h200
      rcases body with _ | ⟨_ | ⟨c, rest⟩⟩ <;> simp [getClip]
    · by_cases h401 : s = 401
      · subst h401
        cases refreshR with
        | ok a r =>
          cases second with
          | timeout => simp [getClip]
          | connError => simp [getClip]
          | reply s2 body2 =>
            by_cases h2 : s2 = 200
            · subst h2
              rcases body2 with _ | ⟨_ | ⟨c, rest⟩⟩ <;> simp [getClip]
            · simp [getClip, h2]
        | timeout => simp [getClip]
        | connError => simp [getClip]
        | otherError => simp [getClip]
      · simp [getClip, h200, h401]

/-! ## Clip creator (`ClipCreator.process_element`, lines 513-590)

The anomaly consumer: a bounded retry loop around `create_clip`, then a 15 s
processing wait, a `get_clip` metadata fetch and a catalog insert.  The
outcome of the i-th `create_clip` call (0-based) is the oracle
`f : Nat → Except APIError (Option String)`; the embedding returns a trace
recording how many attempts were made, which retry delays were slept,
whether the 15 s wait and the `get_clip` call happened, and the catalog rows
written. -/

structure AnomalyEvent where
  broadcaster_id : Int
  detected_at : Int
  message_count : Nat
  baseline_mean : ℚ
  /-- The job serializes `baseline_std = sqrt baseline_var`; the variance is
  carried here because the square root of a rational is irrational in
  general.  No claim inspects this value. -/
  baseline_var : ℚ
deriving DecidableEq

structure ClipData where
  embed_url : String
  thumbnail_url : String
deriving DecidableEq

structure ClipRow where
  broadcaster_id : Int
  clip_id : String
  embed_url : String
  thumbnail_url : String
  detected_at : Int
deriving DecidableEq

structure RetryLoopResult where
  attemptsMade : Nat
  sleeps : List Nat
  clipId : Option String

/-- The `for attempt, delay in enumerate(RETRY_DELAYS)` loop (lines
526-549): sleep the delay when positive, call `create_clip`, break on a
truthy clip id or a non-retryable `TwitchAPIError`; a falsy return value or
a retryable error moves on to the next attempt. -/
def createRetryLoop (f : Nat → Except APIError (Option String)) (idx : Nat)
    (clipId : Option String) : List Nat → RetryLoopResult
  | [] => ⟨0, [], clipId⟩
  | delay :: rest =>
    let sleeps0 : List Nat := if 0 < delay then [delay] else []
    match f idx with
    | .ok v =>
      if pyTruthyStr v then ⟨1, sleeps0, v⟩
      else
        let r := createRetryLoop f (idx + 1) v rest
        ⟨r.attemptsMade + 1, sleeps0 ++ r.sleeps, r.clipId⟩
    | .error e =>
      if e.is_retryable then
        let r := createRetryLoop f (idx + 1) clipId rest
        ⟨r.attemptsMade + 1, sleeps0 ++ r.sleeps, r.clipId⟩
      else ⟨1, sleeps0, clipId⟩

/-- Attempt `i` returned a truthy (non-`None`, non-empty) clip id. -/
def attemptSuccess (f : Nat → Except APIError (Option String)) (i : Nat) : Prop :=
  ∃ v, f i = .ok v ∧ pyTruthyStr v = true

/-- Attempt `i` raised a permanent (non-retryable) `TwitchAPIError`. -/
def attemptPermanent (f : Nat → Except APIError (Option String)) (i : Nat) : Prop :=
  ∃ e, f i = .error e ∧ e.is_retryable = false

/-- Behaviour of the retry loop: at most one attempt per configured delay,
the slept delays are exactly the positive delays preceding the attempts
made, every attempt before the last made one was neither a success nor a
permanent failure, and the final clip id is truthy exactly when some made
attempt succeeded. -/
theorem createRetryLoop_spec (f : Nat → Except APIError (Option String)) :
    ∀ (rest : List Nat) (idx : Nat) (c0 : Option String),
      pyTruthyStr c0 = false →
      (createRetryLoop f idx c0 rest).attemptsMade ≤ rest.length
      ∧ (createRetryLoop f idx c0 rest).sleeps
          = (rest.take (createRetryLoop f idx c0 rest).attemptsMade).filter
              (fun d => decide (0 < d))
      ∧ (∀ j, j + 1 < (createRetryLoop f idx c0 rest).attemptsMade →
          ¬ attemptSuccess f (idx + j) ∧ ¬ attemptPermanent f (idx + j))
      ∧ (pyTruthyStr (createRetryLoop f idx c0 rest).clipId = true ↔
          ∃ j, j < (createRetryLoop f idx c0 rest).attemptsMade
            ∧ attemptSuccess f (idx + j)) := by
  intro rest
  induction rest with
  | nil =>
    intro idx c0 hc0
    refine ⟨Nat.le_refl _, rfl, fun j hj => absurd hj (by simp [createRetryLoop]), ?_⟩
    simp [createRetryLoop, hc0]
  | cons delay rest ih =>
    intro idx c0 hc0
    cases hfi : f idx with
    | ok v =>
      by_cases hv : pyTruthyStr v = true
      · have hstep : createRetryLoop f idx c0 (delay :: rest)
            = ⟨1, if 0 < delay then [delay] else [], v⟩ := by
          simp [createRetryLoop, hfi, hv]
        rw [hstep]
        refine ⟨by simp, ?_, fun j hj => absurd (show j + 1 < 1 from hj) (by omega), ?_⟩
        · by_cases hd : 0 < delay <;> simp [hd]
        · simp only [hv, true_iff]
          exact ⟨0, by omega, v, by simpa using hfi, hv⟩
      · have hv' : pyTruthyStr v = false := by simpa using hv
        obtain ⟨iha, ihb, ihc, ihd⟩ := ih (idx + 1) v hv'
        have hstep : createRetryLoop f idx c0 (delay :: rest)
            = ⟨(createRetryLoop f (idx + 1) v rest).attemptsMade + 1,
               (if 0 < delay then [delay] else [])
                 ++ (createRetryLoop f (idx + 1) v rest).sleeps,
               (createRetryLoop f (idx + 1) v rest).clipId⟩ := by
          simp [createRetryLoop, hfi, hv]
        rw [hstep]
        refine ⟨by simpa using iha, ?_, ?_, ?_⟩
        · simp only [List.take_succ_cons, List.filter_cons, ihb]
          by_cases hd : 0 < delay <;> simp [hd]
        · intro j hj
          match j with
          | 0 =>
            constructor
            · rintro ⟨w, hw, hwt⟩
              rw [Nat.add_zero] at hw
              rw [hfi] at hw
              cases hw
              exact absurd hwt (by simp [hv'])
            · rintro ⟨e, he, _⟩
              rw [Nat.add_zero] at he
              rw [hfi] at he
              cases he
          | j' + 1 =>
            have := ihc j' (by simpa using hj)
            simpa [Nat.add_comm, Nat.add_left_comm, Nat.add_assoc] using this
        · simp only [ihd]
          constructor
          · rintro ⟨j', hj', hs⟩
            exact ⟨j' + 1, by omega, by
              simpa [Nat.add_comm, Nat.add_left_comm, Nat.add_assoc] using hs⟩
          · rintro ⟨j, hj, hs⟩
            match j with
            | 0 =>
              exfalso
              obtain ⟨w, hw, hwt⟩ := hs
              rw [Nat.add_zero] at hw
              rw [hfi] at hw
              cases hw
              exact absurd hwt (by simp [hv'])
            | j' + 1 =>
              exact ⟨j', by omega, by
                simpa [Nat.add_comm, Nat.add_left_comm, Nat.add_assoc] using hs⟩
    | error e =>
      by_cases he : e.is_retryable = true
      · obtain ⟨iha, ihb, ihc, ihd⟩ := ih (idx + 1) c0 hc0
        have hstep : createRetryLoop f idx c0 (delay :: rest)
            = ⟨(createRetryLoop f (idx + 1) c0 rest).attemptsMade + 1,
               (if 0 < delay then [delay] else [])
                 ++ (createRetryLoop f (idx + 1) c0 rest).sleeps,
               (createRetryLoop f (idx + 1) c0 rest).clipId⟩ := by
          simp [createRetryLoop, hfi, he]
        rw [hstep]
        refine ⟨by simpa using iha, ?_, ?_, ?_⟩
        · simp only [List.take_succ_cons, List.filter_cons, ihb]
          by_cases hd : 0 < delay <;> simp [hd]
        · intro j hj
          match j with
          | 0 =>
            constructor
            · rintro ⟨w, hw, _⟩
              rw [Nat.add_zero] at hw
              rw [hfi] at hw
              cases hw
            · rintro ⟨e', he', hef⟩
              rw [Nat.add_zero] at he'
              rw [hfi] at he'
              cases he'
              exact absurd hef (by simp [he])
          | j' + 1 =>
            have := ihc j' (by simpa using hj)
            simpa [Nat.add_comm, Nat.add_left_comm, Nat.add_assoc] using this
        · simp only [ihd]
          constructor
          · rintro ⟨j', hj', hs⟩
            exact ⟨j' + 1, by omega, by
              simpa [Nat.add_comm, Nat.add_left_comm, Nat.add_assoc] using hs⟩
          · rintro ⟨j, hj, hs⟩
            match j with
            | 0 =>
              exfalso
              obtain ⟨w, hw, _⟩ := hs
              rw [Nat.add_zero] at hw
              rw [hfi] at hw
              cases hw
            | j' + 1 =>
              exact ⟨j', by omega, by
                simpa [Nat.add_comm, Nat.add_left_comm, Nat.add_assoc] using hs⟩
      · have he' : e.is_retryable = false := by simpa using he
        have hstep : createRetryLoop f idx c0 (delay :: rest)
            = ⟨1, if 0 < delay then [delay] else [], c0⟩ := by
          simp [createRetryLoop, hfi, he']
        rw [hstep]
        refine ⟨by simp, ?_, fun j hj => absurd (show j + 1 < 1 from hj) (by omega), ?_⟩
        · by_cases hd : 0 < delay <;> simp [hd]
        · constructor
          · intro ht
            exact absurd (show pyTruthyStr c0 = true from ht) (by simp [hc0])
          · rintro ⟨j, hj, w, hw, hwt⟩
            have hj0 : j = 0 := by
              have hj' : j < 1 := hj
              omega
            subst hj0
            rw [Nat.add_zero] at hw
            rw [hfi] at hw
            cases hw

structure CreatorTrace where
  attemptsMade : Nat
  sleeps : List Nat
  /-- Was the 15 s post-create processing wait performed (line 560)? -/
  slept15 : Bool
  /-- Was `get_clip` called (line 564)? -/
  getClipCalled : Bool
  /-- Catalog rows written via `insert_clip` (line 577). -/
  inserted : List ClipRow
  /-- The JSON record yielded downstream (line 580), if any. -/
  output : Option ClipRow

/-- `ClipCreator.process_element` (lines 513-590): run the bounded retry
loop; when the final clip id is falsy, return with no wait, no metadata
fetch and no row; otherwise sleep 15 s, call `get_clip` and — when metadata
came back — insert the catalog row and yield the result. -/
def clipCreatorProcess (anomaly : AnomalyEvent)
    (f : Nat → Except APIError (Option String)) (clipData : Option ClipData) :
    CreatorTrace :=
  let r := createRetryLoop f 0 none RETRY_DELAYS
  if pyTruthyStr r.clipId then
    let cid := r.clipId.getD ""
    match clipData with
    | some d =>
      let row : ClipRow :=
        ⟨anomaly.broadcaster_id, cid, d.embed_url, d.thumbnail_url, anomaly.detected_at⟩
      ⟨r.attemptsMade, r.sleeps, true, true, [row], some row⟩
    | none => ⟨r.attemptsMade, r.sleeps, true, true, [], none⟩
  else ⟨r.attemptsMade, r.sleeps, false, false, [], none⟩

/-- C4: for every anomaly processed by the clip creator, at most
`MAX_RETRY_ATTEMPTS = 3` create attempts are made; the delays slept before
the attempts are exactly the positive entries of `RETRY_DELAYS = [0, 3, 6]`
preceding the attempts made (0 s, 3 s, 6 s before attempts 1, 2, 3); every
attempt before the last one made neither returned a non-empty clip id nor
raised a permanent error (the sequence stops at the first such attempt); and
when no attempt yields a non-empty clip id, no 15-second wait occurs,
`get_clip` is never called, and no catalog row is written. -/
theorem c4_bounded_retry (anomaly : AnomalyEvent)
    (f : Nat → Except APIError (Option String)) (clipData : Option ClipData) :
    (clipCreatorProcess anomaly f clipData).attemptsMade ≤ MAX_RETRY_ATTEMPTS
    ∧ (clipCreatorProcess anomaly f clipData).sleeps
        = (RETRY_DELAYS.take (clipCreatorProcess anomaly f clipData).attemptsMade).filter
            (fun d => decide (0 < d))
    ∧ (∀ j, j + 1 < (clipCreatorProcess anomaly f clipData).attemptsMade →
        ¬ attemptSuccess f j ∧ ¬ attemptPermanent f j)
    ∧ ((¬ ∃ j, j < (clipCreatorProcess anomaly f clipData).attemptsMade
          ∧ attemptSuccess f j) →
        (clipCreatorProcess anomaly f clipData).slept15 = false
        ∧ (clipCreatorProcess anomaly f clipData).getClipCalled = false
        ∧ (clipCreatorProcess anomaly f clipData).inserted = []
        ∧ (clipCreatorProcess anomaly f clipData).output = none) := by
  obtain ⟨ha, hb, hc, hd⟩ := createRetryLoop_spec f RETRY_DELAYS 0 none rfl
  have hlen : RETRY_DELAYS.length = MAX_RETRY_ATTEMPTS := rfl
  by_cases ht : pyTruthyStr (createRetryLoop f 0 none RETRY_DELAYS).clipId = true
  · have hex : ∃ j, j < (createRetryLoop f 0 none RETRY_DELAYS).attemptsMade
        ∧ attemptSuccess f j := by
      obtain ⟨j, hj, hs⟩ := hd.mp ht
      exact ⟨j, hj, by simpa using hs⟩
    cases clipData with
    | some d =>
      have hstep : clipCreatorProcess anomaly f (some d)
          = ⟨(createRetryLoop f 0 none RETRY_DELAYS).attemptsMade,
             (createRetryLoop f 0 none RETRY_DELAYS).sleeps, true, true,
             [⟨anomaly.broadcaster_id,
               (createRetryLoop f 0 none RETRY_DELAYS).clipId.getD "",
               d.embed_url, d.thumbnail_url, anomaly.detected_at⟩],
             some ⟨anomaly.broadcaster_id,
               (createRetryLoop f 0 none RETRY_DELAYS).clipId.getD "",
               d.embed_url, d.thumbnail_url, anomaly.detected_at⟩⟩ := by
        simp [clipCreatorProcess, ht]
      rw [hstep]
      exact ⟨hlen ▸ ha, hb, fun j hj => by simpa using hc j hj,
        fun hno => absurd hex hno⟩
    | none =>
      have hstep : clipCreatorProcess anomaly f none
          = ⟨(createRetryLoop f 0 none RETRY_DELAYS).attemptsMade,
             (createRetryLoop f 0 none RETRY_DELAYS).sleeps, true, true, [], none⟩ := by
        simp [clipCreatorProcess, ht]
      rw [hstep]
      exact ⟨hlen ▸ ha, hb, fun j hj => by simpa using hc j hj,
        fun hno => absurd hex hno⟩
  · have ht' : pyTruthyStr (createRetryLoop f 0 none RETRY_DELAYS).clipId = false := by
      simpa using ht
    have hstep : clipCreatorProcess anomaly f clipData
        = ⟨(createRetryLoop f 0 none RETRY_DELAYS).attemptsMade,
           (createRetryLoop f 0 none RETRY_DELAYS).sleeps, false, false, [], none⟩ := by
      simp [clipCreatorProcess, ht']
    rw [hstep]
    exact ⟨hlen ▸ ha, hb, fun j hj => by simpa using hc j hj,
      fun _ => ⟨rfl, rfl, rfl, rfl⟩⟩

/-- Witness for C4: a permanent 403 on the first attempt means no 15 s wait,
no `get_clip` call, no catalog row and no output. -/
theorem c4_bounded_retry_witness :
    (clipCreatorProcess ⟨111, 0, 25, 5, 1⟩ (fun _ => .error ⟨403, false⟩) none).slept15 = false
    ∧ (clipCreatorProcess ⟨111, 0, 25, 5, 1⟩
        (fun _ => .error ⟨403, false⟩) none).getClipCalled = false
    ∧ (clipCreatorProcess ⟨111, 0, 25, 5, 1⟩
        (fun _ => .error ⟨403, false⟩) none).inserted = []
    ∧ (clipCreatorProcess ⟨111, 0, 25, 5, 1⟩
        (fun _ => .error ⟨403, false⟩) none).output = none :=
  (c4_bounded_retry ⟨111, 0, 25, 5, 1⟩ (fun _ => .error ⟨403, false⟩) none).2.2.2
    (by rintro ⟨j, hj, v, hv, hvt⟩; cases hv)

/-! ## Fleet monitor (`StreamMonitoringService`,
`stream_monitoring_service.py`)

`_manage_chat_connections` and the membership effect of
`poll_top_streams`, over `Finset String` for `self.joined_channels`. -/

def JOIN_THRESHOLD : Nat := 5

def LEAVE_THRESHOLD : Nat := 10

/-- `_manage_chat_connections` (lines 275-329).  `chatUp` says whether
`self.chat` is already initialized, `chatInitOk` whether the lazy
`Chat(self.twitch)` construction succeeds when attempted, and
`joinOk c` / `leaveOk c` whether `join_room c` / `leave_room c` complete
without raising (a failed call is caught per channel and leaves
`joined_channels` untouched for that channel).  When no chat client exists
the per-channel `leave_room` call on `None` raises and is caught, so no
leave takes effect. -/
def manageChatConnections (joined joinElig leaveElig : Finset String)
    (chatUp chatInitOk : Bool) (joinOk leaveOk : String → Bool) : Finset String :=
  let channelsToJoin := joinElig \ joined
  let channelsToLeave := joined \ leaveElig
  if channelsToJoin.Nonempty ∧ chatUp = false ∧ chatInitOk = false then
    joined
  else
    let chatUp2 := chatUp || decide channelsToJoin.Nonempty
    let afterJoins := joined ∪ channelsToJoin.filter (fun c => joinOk c = true)
    afterJoins \ channelsToLeave.filter (fun c => (chatUp2 && leaveOk c) = true)

structure TwitchStream where
  user_login : String
  user_id : Int
deriving DecidableEq

/-- The set of logins ranked at most `k` in a poll result (ranks are
1-based positions in the returned list; logins are lowercased at line
226). -/
def topByRank (streams : List TwitchStream) (k : Nat) : Finset String :=
  ((streams.take k).map (fun s => s.user_login.toLower)).toFinset

/-- `poll_top_streams` (lines 209-273), restricted to its effect on
`joined_channels`.  `streamsResult` is the outcome of the `get_streams`
iteration (which collects at most `LEAVE_THRESHOLD` entries);
`sideEffectsOk` models the cache/catalog side effects inside the loop
(lines 237-263), whose exceptions are caught by the outer handler (line
271) before `_manage_chat_connections` runs.  On any raised error the tick
leaves `joined_channels` exactly as it was. -/
def pollTopStreams (joined : Finset String)
    (streamsResult : Except Unit (List TwitchStream)) (sideEffectsOk : Bool)
    (chatUp chatInitOk : Bool) (joinOk leaveOk : String → Bool) : Finset String :=
  match streamsResult with
  | .error _ => joined
  | .ok streams =>
    if sideEffectsOk = false then joined
    else
      let taken := streams.take LEAVE_THRESHOLD
      manageChatConnections joined (topByRank taken JOIN_THRESHOLD)
        (topByRank taken LEAVE_THRESHOLD) chatUp chatInitOk joinOk leaveOk

/-- Core invariant of `_manage_chat_connections`: the new membership set is
contained in the old set plus the join-eligible channels, and every joined
channel still leave-eligible survives the tick. -/
theorem manageChatConnections_spec (joined joinElig leaveElig : Finset String)
    (chatUp chatInitOk : Bool) (joinOk leaveOk : String → Bool) :
    manageChatConnections joined joinElig leaveElig chatUp chatInitOk joinOk leaveOk
        ⊆ joined ∪ joinElig
    ∧ (∀ c ∈ joined, c ∈ leaveElig →
        c ∈ manageChatConnections joined joinElig leaveElig chatUp chatInitOk joinOk leaveOk) := by
  simp only [manageChatConnections]
  split
  · exact ⟨Finset.subset_union_left, fun c hc _ => hc⟩
  · constructor
    · intro x hx
      simp only [Finset.mem_sdiff, Finset.mem_union, Finset.mem_filter] at hx
      rcases hx.1 with h | h
      · exact Finset.mem_union_left _ h
      · exact Finset.mem_union_right _ h.1.1
    · intro c hc hle
      simp only [Finset.mem_sdiff, Finset.mem_union, Finset.mem_filter]
      exact ⟨Or.inl hc, fun hmem => absurd hle hmem.1.2⟩

/-- C5: for every poll tick, the joined set after `_manage_chat_connections`
is a subset of the union of the previous joined set and the channels ranked
at most `JOIN_THRESHOLD` (hence, the join set being contained in the leave
set, also of the previous set united with `top_leave`); and the monitor
never leaves a channel still ranked at most `LEAVE_THRESHOLD`.  The last
conjunct states the subset bound for a full successful `poll_top_streams`
tick. -/
theorem c5_hysteresis_strict (joined joinElig leaveElig : Finset String)
    (chatUp chatInitOk : Bool) (joinOk leaveOk : String → Bool) :
    manageChatConnections joined joinElig leaveElig chatUp chatInitOk joinOk leaveOk
        ⊆ joined ∪ joinElig
    ∧ (joinElig ⊆ leaveElig →
        manageChatConnections joined joinElig leaveElig chatUp chatInitOk joinOk leaveOk
          ⊆ joined ∪ leaveElig)
    ∧ (∀ c ∈ joined, c ∈ leaveElig →
        c ∈ manageChatConnections joined joinElig leaveElig chatUp chatInitOk joinOk leaveOk)
    ∧ (∀ streams sideEffectsOk,
        pollTopStreams joined (.ok streams) sideEffectsOk chatUp chatInitOk joinOk leaveOk
          ⊆ joined ∪ topByRank (streams.take LEAVE_THRESHOLD) JOIN_THRESHOLD) := by
  obtain ⟨h1, h2⟩ :=
    manageChatConnections_spec joined joinElig leaveElig chatUp chatInitOk joinOk leaveOk
  refine ⟨h1, ?_, h2, ?_⟩
  · intro hsub
    exact h1.trans (Finset.union_subset_union_right hsub)
  · intro streams sideEffectsOk
    cases sideEffectsOk with
    | false =>
      simp only [pollTopStreams]
      exact Finset.subset_union_left
    | true =>
      simp only [pollTopStreams]
      exact (manageChatConnections_spec joined _ _ chatUp chatInitOk joinOk leaveOk).1

/-- Witness for C5: a joined channel still inside the leave threshold
survives a tick in which it is no longer join-eligible. -/
theorem c5_hysteresis_strict_witness :
    "x" ∈ manageChatConnections {"x"} ∅ {"x"} true true (fun _ => true) (fun _ => true) :=
  (c5_hysteresis_strict {"x"} ∅ {"x"} true true (fun _ => true) (fun _ => true)).2.2.1
    "x" (by decide) (by decide)

/-- C9: a poll tick whose `get_streams` listing raises leaves
`joined_channels` exactly as it was, and a channel is dropped from
`joined_channels` only by a successful tick whose result no longer ranks it
within `LEAVE_THRESHOLD`. -/
theorem c9_poll_error_frame (joined : Finset String)
    (sideEffectsOk chatUp chatInitOk : Bool) (joinOk leaveOk : String → Bool) :
    (∀ e, pollTopStreams joined (.error e) sideEffectsOk chatUp chatInitOk
        joinOk leaveOk = joined)
    ∧ (∀ streamsResult c, c ∈ joined →
        c ∉ pollTopStreams joined streamsResult sideEffectsOk chatUp chatInitOk
          joinOk leaveOk →
        ∃ streams, streamsResult = .ok streams
          ∧ c ∉ topByRank (streams.take LEAVE_THRESHOLD) LEAVE_THRESHOLD) := by
  refine ⟨fun e => rfl, ?_⟩
  intro streamsResult c hc hout
  cases streamsResult with
  | error e => exact absurd hc hout
  | ok streams =>
    refine ⟨streams, rfl, ?_⟩
    intro hlv
    cases sideEffectsOk with
    | false => exact hout hc
    | true =>
      exact hout ((manageChatConnections_spec joined _ _ chatUp chatInitOk
        joinOk leaveOk).2 c hc hlv)

/-- Witness for C9: after a tick returning an empty top list, a previously
joined channel is gone, and the theorem certifies that the successful tick
no longer ranked it. -/
theorem c9_poll_error_frame_witness :
    ∃ streams, (.ok [] : Except Unit (List TwitchStream)) = .ok streams
      ∧ "x" ∉ topByRank (streams.take LEAVE_THRESHOLD) LEAVE_THRESHOLD :=
  (c9_poll_error_frame {"x"} true true true (fun _ => true) (fun _ => true)).2
    (.ok []) "x" (by decide) (by decide)

/-! ## Spike detector (`AnomalyDetector`, `clip_detector_job.py`, lines 376-487)

Keyed per-channel state: the sparse bucket map `message_counts`
(epoch-second → count, embedded as an association list) and
`last_anomaly_time` (ms).  Wall-clock `now = int(time.time())` and the
message timestamp are explicit arguments of the step.  Python floats become
exact rationals; the single square root (`statistics.stdev`) is eliminated
by the equivalent squared comparison `anomalyCond`, proved faithful to the
real-valued test in `anomalyCond_iff_real`. -/

structure DetectorState where
  messageCounts : List (Int × Nat)
  lastAnomalyTime : Option Int
deriving DecidableEq

/-- `self.message_counts.get(bucket)`. -/
def mapGet (m : List (Int × Nat)) (k : Int) : Option Nat :=
  (m.find? (fun kv => kv.1 == k)).map Prod.snd

/-- `self.message_counts.put(bucket, v)`. -/
def mapPut (m : List (Int × Nat)) (k : Int) (v : Nat) : List (Int × Nat) :=
  if (m.find? (fun kv => kv.1 == k)).isSome then
    m.map (fun kv => if kv.1 == k then (k, v) else kv)
  else
    m ++ [(k, v)]

/-- `bucket = timestamp // 1000` (Python floor division). -/
def bucketOf (ts : Int) : Int := Int.fdiv ts 1000

/-- The bucket map after `self.message_counts.put(bucket, current_count + 1)`
(lines 415-418). -/
def updatedCounts (st : DetectorState) (ts : Int) : List (Int × Nat) :=
  mapPut st.messageCounts (bucketOf ts)
    ((mapGet st.messageCounts (bucketOf ts)).getD 0 + 1)

/-- The bucket map after evicting buckets older than
`now - BASELINE_WINDOW_SECONDS` (lines 429-433). -/
def prunedCounts (st : DetectorState) (ts now : Int) : List (Int × Nat) :=
  (updatedCounts st ts).filter (fun kv => decide (now - BASELINE_WINDOW_SECONDS ≤ kv.1))

/-- `counts_baseline` (line 435): the counts of the surviving buckets. -/
def baselineCounts (st : DetectorState) (ts now : Int) : List Nat :=
  (prunedCounts st ts now).map Prod.snd

/-- `counts_window` (line 437): counts of surviving buckets inside the
5-second window. -/
def windowCounts (st : DetectorState) (ts now : Int) : List Nat :=
  ((updatedCounts st ts).filter (fun kv =>
    decide (now - BASELINE_WINDOW_SECONDS ≤ kv.1)
      && decide (now - WINDOW_SIZE_SECONDS ≤ kv.1))).map Prod.snd

/-- `min_required = int(BASELINE_WINDOW_SECONDS * 0.8)` (line 440). -/
def minRequiredBaseline : Nat := 240

/-- `statistics.mean` over the baseline counts, exact. -/
def sampleMean (l : List Nat) : ℚ :=
  (l.map (fun n => (Nat.cast n : ℚ))).sum / (l.length : ℚ)

/-- The square of `statistics.stdev` (the sample variance, divisor
`n - 1`), exact. -/
def sampleVar (l : List Nat) : ℚ :=
  (l.map (fun n => ((Nat.cast n : ℚ) - sampleMean l) ^ 2)).sum / ((l.length : ℚ) - 1)

/-- The test `window_sum > mean + STD_DEV_THRESHOLD * std_dev and
std_dev > 0` (line 460) with `std_dev = sqrt var`, rendered as an exact
rational comparison; `anomalyCond_iff_real` shows it coincides with the
real-valued test. -/
def anomalyCond (ws mean var : ℚ) : Bool :=
  decide (0 < var) && decide (mean < ws)
    && decide (var * STD_DEV_THRESHOLD ^ 2 < (ws - mean) ^ 2)

/-- Soundness of the square-root elimination: `anomalyCond` holds exactly
when `window_sum > mean + STD_DEV_THRESHOLD * sqrt var` and
`sqrt var > 0` over the reals. -/
theorem anomalyCond_iff_real (ws mean var : ℚ) :
    anomalyCond ws mean var = true ↔
      ((mean : ℝ) + (STD_DEV_THRESHOLD : ℚ) * Real.sqrt (var : ℚ) < (ws : ℝ)
        ∧ 0 < Real.sqrt (var : ℚ)) := by
  simp only [anomalyCond, STD_DEV_THRESHOLD, Bool.and_eq_true, decide_eq_true_eq,
    one_pow, mul_one]
  constructor
  · rintro ⟨⟨hvar, hmw⟩, hsq⟩
    have hvar' : (0 : ℝ) < (var : ℚ) := by exact_mod_cast hvar
    have hmw' : ((mean : ℚ) : ℝ) < ((ws : ℚ) : ℝ) := by exact_mod_cast hmw
    have hsq' : ((var : ℚ) : ℝ) < (((ws : ℚ) : ℝ) - ((mean : ℚ) : ℝ)) ^ 2 := by
      push_cast
      exact_mod_cast hsq
    have hpos : (0 : ℝ) < ((ws : ℚ) : ℝ) - ((mean : ℚ) : ℝ) := by linarith
    have := (Real.sqrt_lt' hpos).mpr hsq'
    refine ⟨?_, Real.sqrt_pos.mpr hvar'⟩
    push_cast
    push_cast at this
    linarith
  · rintro ⟨hlt, hpos⟩
    have hvar : (0 : ℝ) < (var : ℚ) := Real.sqrt_pos.mp hpos
    have hdiff : (0 : ℝ) < ((ws : ℚ) : ℝ) - ((mean : ℚ) : ℝ) := by
      have := Real.sqrt_nonneg ((var : ℚ) : ℝ)
      push_cast at hlt ⊢
      linarith
    have hsq : ((var : ℚ) : ℝ) < (((ws : ℚ) : ℝ) - ((mean : ℚ) : ℝ)) ^ 2 := by
      refine (Real.sqrt_lt' hdiff).mp ?_
      push_cast at hlt ⊢
      linarith
    refine ⟨⟨by exact_mod_cast hvar, ?_⟩, ?_⟩
    · have : ((mean : ℚ) : ℝ) < ((ws : ℚ) : ℝ) := by linarith
      exact_mod_cast this
    · have : ((var : ℚ) : ℝ) < (((ws : ℚ) - (mean : ℚ) : ℚ) : ℝ) ^ 2 := by
        push_cast
        exact hsq
      exact_mod_cast this

/-- `AnomalyDetector.process_element` (lines 399-487) for one keyed channel
and one incoming message: bump the bucket, evict, warm-up gate, baseline
statistics, threshold test and cooldown; an emission stores
`current_ms = now * 1000` into `last_anomaly_time`. -/
def detectStep (bid : Int) (st : DetectorState) (ts now : Int) :
    DetectorState × Option AnomalyEvent :=
  let st1 : DetectorState := ⟨prunedCounts st ts now, st.lastAnomalyTime⟩
  if (baselineCounts st ts now).length < minRequiredBaseline then (st1, none)
  else if (baselineCounts st ts now).length < 2 then (st1, none)
  else
    let mean := sampleMean (baselineCounts st ts now)
    let var := sampleVar (baselineCounts st ts now)
    let windowSum := (windowCounts st ts now).sum
    if anomalyCond (windowSum : ℚ) mean var then
      match st.lastAnomalyTime with
      | none =>
        (⟨prunedCounts st ts now, some (now * 1000)⟩,
         some ⟨bid, now * 1000, windowSum, mean, var⟩)
      | some last =>
        if now * 1000 - last > COOLDOWN_SECONDS * 1000 then
          (⟨prunedCounts st ts now, some (now * 1000)⟩,
           some ⟨bid, now * 1000, windowSum, mean, var⟩)
        else (st1, none)
    else (st1, none)

/-- C2: baseline warm-up.  Whenever the accumulated baseline covers fewer
than `0.8 × 300 = 240` one-second buckets, processing a chat line emits no
anomaly, regardless of the window contents. -/
theorem c2_baseline_warmup (bid : Int) (st : DetectorState) (ts now : Int)
    (h : (baselineCounts st ts now).length < minRequiredBaseline) :
    (detectStep bid st ts now).2 = none := by
  simp [detectStep, h]

/-- Witness for C2: a first message on a fresh channel yields a single
baseline bucket and no anomaly. -/
theorem c2_baseline_warmup_witness :
    (detectStep 1 ⟨[], none⟩ 0 0).2 = none :=
  c2_baseline_warmup 1 ⟨[], none⟩ 0 0 (by decide)

/-- An emitting step requires the cooldown to be open (no previous anomaly,
or strictly more than `COOLDOWN_SECONDS * 1000` ms of wall time elapsed),
stamps `last_anomaly_time` with `now * 1000`, and the emitted event carries
that timestamp. -/
theorem detectStep_emit (bid : Int) (st : DetectorState) (ts now : Int)
    (st' : DetectorState) (a : AnomalyEvent)
    (h : detectStep bid st ts now = (st', some a)) :
    (st.lastAnomalyTime = none
      ∨ ∃ last, st.lastAnomalyTime = some last
          ∧ now * 1000 - last > COOLDOWN_SECONDS * 1000)
    ∧ st'.lastAnomalyTime = some (now * 1000)
    ∧ a.detected_at = now * 1000 := by
  simp only [detectStep] at h
  split at h
  · simp at h
  split at h
  · simp at h
  split at h
  next hcond =>
    split at h
    next hlast =>
      have h5 : (⟨prunedCounts st ts now, some (now * 1000)⟩ : DetectorState) = st' :=
        congrArg Prod.fst h
      have h6 : some (⟨bid, now * 1000, (windowCounts st ts now).sum,
          sampleMean (baselineCounts st ts now),
          sampleVar (baselineCounts st ts now)⟩ : AnomalyEvent) = some a :=
        congrArg Prod.snd h
      subst h5
      injection h6 with h6
      subst h6
      exact ⟨Or.inl hlast, rfl, rfl⟩
    next last hlast =>
      split at h
      next hc =>
        have h5 : (⟨prunedCounts st ts now, some (now * 1000)⟩ : DetectorState) = st' :=
          congrArg Prod.fst h
        have h6 : some (⟨bid, now * 1000, (windowCounts st ts now).sum,
            sampleMean (baselineCounts st ts now),
            sampleVar (baselineCounts st ts now)⟩ : AnomalyEvent) = some a :=
          congrArg Prod.snd h
        subst h5
        injection h6 with h6
        subst h6
        exact ⟨Or.inr ⟨last, hlast, hc⟩, rfl, rfl⟩
      next hc => simp at h
  next hcond => simp at h

/-- A non-emitting step leaves `last_anomaly_time` untouched. -/
theorem detectStep_none (bid : Int) (st : DetectorState) (ts now : Int)
    (st' : DetectorState) (h : detectStep bid st ts now = (st', none)) :
    st'.lastAnomalyTime = st.lastAnomalyTime := by
  simp only [detectStep] at h
  split at h
  · have h5 : (⟨prunedCounts st ts now, st.lastAnomalyTime⟩ : DetectorState) = st' :=
      congrArg Prod.fst h
    subst h5
    rfl
  split at h
  · have h5 : (⟨prunedCounts st ts now, st.lastAnomalyTime⟩ : DetectorState) = st' :=
      congrArg Prod.fst h
    subst h5
    rfl
  split at h
  next hcond =>
    split at h
    next hlast => simp at h
    next last hlast =>
      split at h
      next hc => simp at h
      next hc =>
        have h5 : (⟨prunedCounts st ts now, st.lastAnomalyTime⟩ : DetectorState) = st' :=
          congrArg Prod.fst h
        subst h5
        rfl
  next hcond =>
    have h5 : (⟨prunedCounts st ts now, st.lastAnomalyTime⟩ : DetectorState) = st' :=
      congrArg Prod.fst h
    subst h5
    rfl

/-- Run the detector over a list of `(timestamp, now)` message inputs for
one channel, collecting the `detected_at` stamps of the emitted anomalies in
order. -/
def runDetector (bid : Int) (st : DetectorState) :
    List (Int × Int) → DetectorState × List Int
  | [] => (st, [])
  | (ts, now) :: rest =>
    let step := detectStep bid st ts now
    let rec1 := runDetector bid step.1 rest
    (rec1.1,
      (match step.2 with
        | some a => [a.detected_at]
        | none => []) ++ rec1.2)

/-- `SepFrom last ts`: the emission times `ts`, in order, each exceed their
predecessor (and the initial stamp `last`, when present) by strictly more
than the cooldown. -/
def SepFrom (last : Option Int) : List Int → Prop
  | [] => True
  | t :: ts =>
    (∀ l, last = some l → t - l > COOLDOWN_SECONDS * 1000) ∧ SepFrom (some t) ts

/-- Every run's emission stamps are cooldown-separated. -/
theorem runDetector_sepFrom (bid : Int) :
    ∀ (msgs : List (Int × Int)) (st : DetectorState),
      SepFrom st.lastAnomalyTime (runDetector bid st msgs).2 := by
  intro msgs
  induction msgs with
  | nil => intro st; exact trivial
  | cons p rest ih =>
    intro st
    obtain ⟨ts, now⟩ := p
    cases hem : (detectStep bid st ts now).2 with
    | none =>
      have hlast := detectStep_none bid st ts now (detectStep bid st ts now).1
        (Prod.ext rfl hem)
      have hrec := ih (detectStep bid st ts now).1
      rw [hlast] at hrec
      simpa [runDetector, hem] using hrec
    | some a =>
      obtain ⟨hcool, hnew, hdet⟩ := detectStep_emit bid st ts now
        (detectStep bid st ts now).1 a (Prod.ext rfl hem)
      have hrec := ih (detectStep bid st ts now).1
      rw [hnew] at hrec
      have hsep : SepFrom st.lastAnomalyTime
          (a.detected_at :: (runDetector bid (detectStep bid st ts now).1 rest).2) := by
        refine ⟨?_, ?_⟩
        · intro l hl
          rcases hcool with hnone | ⟨last, hsome, hgt⟩
          · rw [hnone] at hl; cases hl
          · rw [hsome] at hl
            injection hl with hl
            subst hl
            rw [hdet]
            exact hgt
        · rw [hdet]
          exact hrec
      simpa [runDetector, hem] using hsep

/-- From `SepFrom (some t)`, every later stamp exceeds `t` by more than the
cooldown. -/
theorem sepFrom_gt :
    ∀ (ts : List Int) (t : Int), SepFrom (some t) ts →
      ∀ u ∈ ts, u - t > COOLDOWN_SECONDS * 1000 := by
  intro ts
  induction ts with
  | nil => intro t _ u hu; cases hu
  | cons v rest ih =>
    intro t h u hu
    obtain ⟨h1, h2⟩ := h
    have hv : v - t > COOLDOWN_SECONDS * 1000 := h1 t rfl
    rcases List.mem_cons.mp hu with rfl | hu
    · exact hv
    · have hrest := ih v h2 u hu
      have hC : COOLDOWN_SECONDS * 1000 = (30000 : Int) := rfl
      rw [hC] at hv hrest ⊢
      omega

/-- Cooldown separation yields pairwise separation. -/
theorem sepFrom_pairwise :
    ∀ (ts : List Int) (last : Option Int), SepFrom last ts →
      ts.Pairwise (fun a b => b - a > COOLDOWN_SECONDS * 1000) := by
  intro ts
  induction ts with
  | nil => intro last _; exact List.Pairwise.nil
  | cons t rest ih =>
    intro last h
    exact List.Pairwise.cons (sepFrom_gt rest t h.2) (ih (some t) h.2)

/-- A pairwise cooldown-separated list has at most one element in any
half-open window of length `COOLDOWN_SECONDS * 1000`. -/
theorem pairwise_cooldown_window (ts : List Int)
    (hp : ts.Pairwise (fun a b => b - a > COOLDOWN_SECONDS * 1000)) (w : Int) :
    (ts.filter (fun t =>
      decide (w ≤ t) && decide (t < w + COOLDOWN_SECONDS * 1000))).length ≤ 1 := by
  have hf : (ts.filter (fun t =>
      decide (w ≤ t) && decide (t < w + COOLDOWN_SECONDS * 1000))).Pairwise
        (fun a b => b - a > COOLDOWN_SECONDS * 1000) :=
    List.Pairwise.sublist (List.filter_sublist ts) hp
  cases hfl : ts.filter (fun t =>
      decide (w ≤ t) && decide (t < w + COOLDOWN_SECONDS * 1000)) with
  | nil => simp
  | cons a rest =>
    cases rest with
    | nil => simp
    | cons b rest2 =>
      exfalso
      rw [hfl] at hf
      have hab : b - a > COOLDOWN_SECONDS * 1000 :=
        (List.pairwise_cons.mp hf).1 b (List.mem_cons_self b rest2)
      have ha : a ∈ ts.filter (fun t =>
          decide (w ≤ t) && decide (t < w + COOLDOWN_SECONDS * 1000)) := by
        rw [hfl]; exact List.mem_cons_self a (b :: rest2)
      have hb : b ∈ ts.filter (fun t =>
          decide (w ≤ t) && decide (t < w + COOLDOWN_SECONDS * 1000)) := by
        rw [hfl]; exact List.mem_cons_of_mem a (List.mem_cons_self b rest2)
      have ha' := List.of_mem_filter ha
      have hb' := List.of_mem_filter hb
      simp only [Bool.and_eq_true, decide_eq_true_eq] at ha' hb'
      have hC : COOLDOWN_SECONDS * 1000 = (30000 : Int) := rfl
      rw [hC] at hab
      rw [hC] at ha' hb'
      omega

/-- C1: per-channel cooldown.  An anomaly is emitted only when
`last_anomaly_ms` is null or strictly more than `COOLDOWN_SECONDS * 1000 =
30000` ms of wall time have elapsed since the previous emission for the
channel, and emitting updates `last_anomaly_ms` to the current wall
millisecond stamp; consequently, over any run on a channel, every wall-clock
interval of 30000 ms contains at most one emitted anomaly. -/
theorem c1_cooldown_at_most_one (bid : Int) :
    (∀ st ts now st' a, detectStep bid st ts now = (st', some a) →
        (st.lastAnomalyTime = none
          ∨ ∃ last, st.lastAnomalyTime = some last
              ∧ now * 1000 - last > COOLDOWN_SECONDS * 1000)
        ∧ st'.lastAnomalyTime = some (now * 1000)
        ∧ a.detected_at = now * 1000)
    ∧ (∀ st msgs (w : Int),
        ((runDetector bid st msgs).2.filter (fun t =>
          decide (w ≤ t) && decide (t < w + COOLDOWN_SECONDS * 1000))).length ≤ 1) := by
  refine ⟨detectStep_emit bid, ?_⟩
  intro st msgs w
  exact pairwise_cooldown_window _
    (sepFrom_pairwise _ _ (runDetector_sepFrom bid msgs st)) w

/-- A concrete warmed-up channel state: 239 one-message baseline buckets at
epoch seconds 700-938, plus 9 messages already counted in bucket 1000. -/
def c1State : DetectorState :=
  ⟨(List.range 239).map (fun i => ((700 + i : Int), 1)) ++ [(1000, 9)], none⟩

/-- The baseline count list the witness state produces: 239 ones and a 10. -/
def c1Baseline : List Nat := List.replicate 239 1 ++ [10]

set_option maxRecDepth 100000 in
/-- Witness for C1: at wall second 1000, a tenth message in bucket 1000 on
the warmed-up channel emits an anomaly (mean 83/80, variance 27/80,
window sum 10), stamping `last_anomaly_time = 1000000`. -/
theorem c1_cooldown_at_most_one_witness :
    (c1State.lastAnomalyTime = none
      ∨ ∃ last, c1State.lastAnomalyTime = some last
          ∧ 1000 * 1000 - last > COOLDOWN_SECONDS * 1000)
    ∧ (⟨prunedCounts c1State 1000000 1000,
        some (1000 * 1000)⟩ : DetectorState).lastAnomalyTime = some (1000 * 1000)
    ∧ (⟨1, 1000 * 1000, 10, 83/80, 27/80⟩ : AnomalyEvent).detected_at = 1000 * 1000 :=
  (c1_cooldown_at_most_one 1).1 c1State 1000000 1000
    ⟨prunedCounts c1State 1000000 1000, some (1000 * 1000)⟩
    ⟨1, 1000 * 1000, 10, 83/80, 27/80⟩
    (by
      have hb : baselineCounts c1State 1000000 1000 = c1Baseline := by decide
      have hw : windowCounts c1State 1000000 1000 = [10] := by decide
      have hlen240 : ¬ (c1Baseline.length < minRequiredBaseline) := by decide
      have hlen2 : ¬ (c1Baseline.length < 2) := by decide
      have hm : sampleMean c1Baseline = 83/80 := by
        simp only [sampleMean, c1Baseline, List.map_append, List.map_replicate,
          List.sum_append, List.sum_replicate, List.map_cons, List.map_nil,
          List.sum_cons, List.sum_nil, List.length_append, List.length_replicate,
          List.length_cons, List.length_nil, nsmul_eq_mul, Nat.cast_one,
          Nat.cast_ofNat, add_zero]
        norm_num
      have hv : sampleVar c1Baseline = 27/80 := by
        simp only [sampleVar, hm]
        simp only [c1Baseline, List.map_append, List.map_replicate,
          List.sum_append, List.sum_replicate, List.map_cons, List.map_nil,
          List.sum_cons, List.sum_nil, List.length_append, List.length_replicate,
          List.length_cons, List.length_nil, nsmul_eq_mul, Nat.cast_one,
          Nat.cast_ofNat, add_zero]
        norm_num
      have hcond : anomalyCond 10 (83/80) (27/80) = true := by
        simp only [anomalyCond, Bool.and_eq_true, decide_eq_true_eq, STD_DEV_THRESHOLD]
        norm_num
      have hlast : c1State.lastAnomalyTime = none := rfl
      simp only [detectStep, hb, hw, hm, hv, hlast, List.sum_cons, List.sum_nil,
        add_zero, Nat.cast_ofNat]
      simp [hcond, hlen240, hlen2])

end StreamScout
